import Mathlib

/-!
Verification of the Azure Storage CRC-64 native module
(`sdk/storage/azure-storage-extensions/azure/storage/extensions/crc64/crc64module.c`).

The module exposes two operations:

* `compute(data, initialCrc)` — table-driven CRC-64 update over a byte buffer,
  with an un-complement / re-complement wrapper, a 32-byte four-lane unrolled
  fast path (entered when at least 64 aligned bytes remain), a lane-fold block,
  and a byte-at-a-time tail loop;
* `concat(initialAB, initialA, finalA, lengthA, initialB, finalB, lengthB)` —
  algebraic combination of two independently computed CRCs.

Byte buffers are modelled as `List Nat` (each element a byte value `< 256`),
64-bit machine words as `Nat` (all operations used — xor, and, shifts — never
overflow, so no explicit reduction mod 2^64 is required; 64-bit-ness enters
only through hypotheses `< 2^64` on inputs).

The lookup tables (`m_u1`, `m_u32`), the complement constant and `MulX_N` are
defined in `helpers.h`, which is not part of the available source; they are
modelled from the specification (reflected table-driven CRC recurrence for a
fixed generator polynomial, `MulX_N` = advance past n zero bytes).  All
theorems below are independent of the concrete polynomial constant.
-/

namespace StorageCrc64

/-- Modelled from the spec: the all-ones 64-bit complement constant
`ALL_ONES_64` (`m_uComplement` in the missing `helpers.h`). -/
def m_uComplement : Nat := 0xFFFFFFFFFFFFFFFF

/-- Modelled from the spec: the reflected generator polynomial of the
storage-service CRC-64 variant (defined in the missing `helpers.h`; the
spec deliberately leaves the constant to an external authority).  Every
theorem in this file holds for any value of this constant. -/
def POLY : Nat := 0x9A6C9329AC4BC9B5

/-- One bit-step of the standard reflected CRC recurrence: shift right one
bit and conditionally xor the (reflected) generator polynomial. -/
def step1 (v : Nat) : Nat := if v &&& 1 = 1 then (v >>> 1) ^^^ POLY else v >>> 1

/-- Modelled from the spec: the 256-entry single-byte table `single[]`
(`m_u1` in the missing `helpers.h`): entry `b` is the state reached from 0
after absorbing byte `b`, i.e. eight bit-steps applied to `b`.  All call
sites mask their index with `&&& 255`, mirroring the C code. -/
def m_u1 (b : Nat) : Nat := step1^[8] b

/-- Advance the raw (un-complemented) CRC state past one zero byte; this is
also the byte step the source applies in the lane-fold block
(`uCrc = (uCrc >> 8) ^ m_u1[uCrc & 255]`, crc64module.c lines 112-146), and
it is multiplication by X^8 modulo the generator polynomial in the reflected
representation. -/
def step0 (v : Nat) : Nat := (v >>> 8) ^^^ m_u1 (v &&& 255)

/-- Modelled from the spec: the 8x256 wide table (`m_u32` in the missing
`helpers.h`), indexed as `m_u32[j*256 + b]` by the C code.  Entry `(j, b)`
is the contribution of byte `b` when `24 + j` more bytes of its 32-byte
block follow it, i.e. the single-byte entry advanced past `24 + j` zero
bytes; this is the unique table for which the spec's requirement that the
32-byte four-lane fast path agree with the byte-at-a-time method holds. -/
def m_u32 (j b : Nat) : Nat := step0^[24 + j] (m_u1 b)

/-- Modelled from the spec: `MulX_N(crc, n)` multiplies a field element by
`X^(8*n)` modulo the generator polynomial — equivalently, advances a raw
CRC accumulator as if `n` zero bytes had been appended (the spec allows any
implementation producing these bit-identical results; `helpers.h` defining
it is not part of the available source). -/
def MulX_N (uCrc uSize : Nat) : Nat := step0^[uSize] uCrc

/-- The byte-at-a-time update step of the source's tail loop
(`uCrc = (uCrc >> 8) ^ m_u1[(uCrc ^ src[pData]) & (256 - 1)]`,
crc64module.c line 152). -/
def stepByte (uCrc b : Nat) : Nat := (uCrc >>> 8) ^^^ m_u1 ((uCrc ^^^ b) &&& 255)

/-- Little-endian decode of the 8 bytes at offsets `p .. p+7`, the value of
the C expression `*((uint64_t*)(src + p))` on the little-endian targets the
source supports (crc64module.c lines 41-46). -/
def readWord (src : List Nat) (p : Nat) : Nat :=
  src.getD p 0 +
  0x100 * src.getD (p + 1) 0 +
  0x10000 * src.getD (p + 2) 0 +
  0x1000000 * src.getD (p + 3) 0 +
  0x100000000 * src.getD (p + 4) 0 +
  0x10000000000 * src.getD (p + 5) 0 +
  0x1000000000000 * src.getD (p + 6) 0 +
  0x100000000000000 * src.getD (p + 7) 0

/-- One lane of one iteration of the 32-byte unrolled loop: the eight
`m_u32` lookups the source performs on `b = word ^ laneCrc`
(crc64module.c lines 48-107, one of the four interleaved lanes). -/
def laneStep (b : Nat) : Nat :=
  let c := m_u32 7 (b &&& 255)
  let b := b >>> 8
  let c := c ^^^ m_u32 6 (b &&& 255)
  let b := b >>> 8
  let c := c ^^^ m_u32 5 (b &&& 255)
  let b := b >>> 8
  let c := c ^^^ m_u32 4 (b &&& 255)
  let b := b >>> 8
  let c := c ^^^ m_u32 3 (b &&& 255)
  let b := b >>> 8
  let c := c ^^^ m_u32 2 (b &&& 255)
  let b := b >>> 8
  let c := c ^^^ m_u32 1 (b &&& 255)
  let b := b >>> 8
  c ^^^ m_u32 0 (b &&& 255)

/-- The unrolled four-lane loop (crc64module.c lines 37-108): each
iteration consumes one 32-byte block, xoring each of the four 8-byte words
into its lane accumulator and folding it through the wide table. -/
def fastLoop (src : List Nat) (p blocks c0 c1 c2 c3 : Nat) :
    Nat × Nat × Nat × Nat :=
  match blocks with
  | 0 => (c0, c1, c2, c3)
  | b + 1 =>
    fastLoop src (p + 32) b
      (laneStep (readWord src (p + 0) ^^^ c0))
      (laneStep (readWord src (p + 8) ^^^ c1))
      (laneStep (readWord src (p + 16) ^^^ c2))
      (laneStep (readWord src (p + 24) ^^^ c3))

/-- The lane-fold block (crc64module.c lines 110-146): consumes the last
32-byte block of the fast region, merging the four lane accumulators back
into a single running CRC with eight single-byte table steps per lane. -/
def foldLanes (src : List Nat) (p c0 c1 c2 c3 : Nat) : Nat :=
  let crc := 0 ^^^ (readWord src (p + 0) ^^^ c0)
  let crc := step0^[8] crc
  let crc := crc ^^^ (readWord src (p + 8) ^^^ c1)
  let crc := step0^[8] crc
  let crc := crc ^^^ (readWord src (p + 16) ^^^ c2)
  let crc := step0^[8] crc
  let crc := crc ^^^ (readWord src (p + 24) ^^^ c3)
  step0^[8] crc

/-- The byte-at-a-time tail loop (crc64module.c lines 150-153): `cnt`
iterations starting at offset `p`. -/
def tailLoop (src : List Nat) (p cnt crc : Nat) : Nat :=
  match cnt with
  | 0 => crc
  | n + 1 => tailLoop src (p + 1) n (stepByte crc (src.getD p 0))

/-- The `compute` entry point (crc64module.c lines 9-156): un-complement,
four-lane unrolled fast path when at least two 32-byte blocks fit
(`uStop >= 2 * 32`), lane fold over the last fast block, byte-at-a-time
tail, re-complement. -/
def compute (src : List Nat) (uInitialCrc : Nat) : Nat :=
  let uSize := src.length
  let uCrc := uInitialCrc ^^^ m_uComplement
  let uStop := uSize - uSize % 32
  if 2 * 32 ≤ uStop then
    let blocks := uStop / 32 - 1
    let L := fastLoop src 0 blocks uCrc 0 0 0
    let uCrc := foldLanes src (32 * blocks) L.1 L.2.1 L.2.2.1 L.2.2.2
    tailLoop src uStop (uSize - uStop) uCrc ^^^ m_uComplement
  else
    tailLoop src 0 uSize uCrc ^^^ m_uComplement

/-- The `concat` entry point (crc64module.c lines 158-177): three-term
algebraic combination of two partial CRCs. -/
def concat (uInitialCrcAB uInitialCrcA uFinalCrcA uSizeA
    uInitialCrcB uFinalCrcB uSizeB : Nat) : Nat :=
  let uFinalCrcAB := uFinalCrcA ^^^ m_uComplement
  let uFinalCrcAB :=
    if uInitialCrcA ≠ uInitialCrcAB then
      uFinalCrcAB ^^^ MulX_N (uInitialCrcA ^^^ uInitialCrcAB) uSizeA
    else uFinalCrcAB
  let uFinalCrcAB := uFinalCrcAB ^^^ (uInitialCrcB ^^^ m_uComplement)
  let uFinalCrcAB := MulX_N uFinalCrcAB uSizeB
  uFinalCrcAB ^^^ uFinalCrcB

theorem xor_cancel_right (a b : Nat) : (a ^^^ b) ^^^ b = a := by
  rw [Nat.xor_assoc, Nat.xor_self, Nat.xor_zero]

/-- The `cnt` bytes of `src` starting at offset `p`. -/
def seg (src : List Nat) (p cnt : Nat) : List Nat := (src.drop p).take cnt

theorem seg_zero (src : List Nat) (p : Nat) : seg src p 0 = [] := rfl

theorem seg_succ (src : List Nat) (p n : Nat) (h : p < src.length) :
    seg src p (n + 1) = src.getD p 0 :: seg src (p + 1) n := by
  unfold seg
  rw [List.drop_eq_getElem_cons h, List.take_succ_cons]
  congr 1
  rw [List.getD_eq_getElem?_getD, List.getElem?_eq_getElem h]
  rfl

theorem seg_length {src : List Nat} {p cnt : Nat} (h : p + cnt ≤ src.length) :
    (seg src p cnt).length = cnt := by
  unfold seg
  rw [List.length_take, List.length_drop]
  omega

theorem seg_whole (src : List Nat) : seg src 0 src.length = src := by
  unfold seg
  rw [List.drop_zero, List.take_length]

theorem seg_bytes {src : List Nat} (h : ∀ b ∈ src, b < 256) (p cnt : Nat) :
    ∀ b ∈ seg src p cnt, b < 256 := fun b hb =>
  h b (List.mem_of_mem_drop (List.mem_of_mem_take hb))

theorem tailLoop_eq_foldl (src : List Nat) :
    ∀ (cnt p crc : Nat), p + cnt ≤ src.length →
      tailLoop src p cnt crc = (seg src p cnt).foldl stepByte crc := by
  intro cnt
  induction cnt with
  | zero => intro p crc _; rw [tailLoop, seg_zero, List.foldl_nil]
  | succ n ih =>
    intro p crc h
    rw [tailLoop, seg_succ src p n (by omega), List.foldl_cons, ih (p + 1) _ (by omega)]

/-! ### The 8-byte word step -/

/-- Claim C7: `compute` applied to the empty byte sequence returns the
initial state unchanged, for every 64-bit state (indeed for every `Nat`);
in particular `compute [] 0 = 0`. -/
theorem compute_empty_identity (s : Nat) : compute [] s = s := by
  simp [compute, tailLoop, xor_cancel_right]

/-- Claim C10: `compute` is deterministic — two calls with identical data
and identical initial state yield identical results (the result is a
function of the arguments only; the tables are immutable). -/
theorem compute_deterministic (d1 d2 : List Nat) (s1 s2 : Nat)
    (h1 : d1 = d2) (h2 : s1 = s2) : compute d1 s1 = compute d2 s2 := by
  rw [h1, h2]

/-- Witness for C10 at concrete arguments. -/
theorem compute_deterministic_witness :
    compute [1, 2, 3] 5 = compute [1, 2, 3] 5 :=
  compute_deterministic [1, 2, 3] [1, 2, 3] 5 5 (by decide) (by decide)

/-- Claim C4: for every byte sequence shorter than 64 bytes (so the
unrolled fast path is never entered) and every initial value, `compute` is
exactly un-complement, the left fold of the single-byte table step, and
re-complement. -/
theorem compute_short_is_complemented_fold (d : List Nat) (s : Nat)
    (h : d.length < 64) :
    compute d s = m_uComplement ^^^ d.foldl stepByte (s ^^^ m_uComplement) := by
  simp only [compute]
  rw [if_neg (by omega), tailLoop_eq_foldl d d.length 0 _ (by omega), seg_whole,
    Nat.xor_comm]

/-- Witness for C4 at a concrete 3-byte input. -/
theorem compute_short_is_complemented_fold_witness :
    compute [10, 20, 30] 4 =
      m_uComplement ^^^ [10, 20, 30].foldl stepByte (4 ^^^ m_uComplement) :=
  compute_short_is_complemented_fold [10, 20, 30] 4 (by decide)

/-- Spec-side description of the combiner, written step for step from the
six-step algorithm of spec section 4.3 (refinement baseline for `concat`):
start from `finalA XOR ALL_ONES_64`; if `initialA != initialAB` xor in
`mulXN(initialA XOR initialAB, lengthA)`; xor in `initialB XOR ALL_ONES_64`;
multiply by `X^(8*lengthB)` via `mulXN`; xor in `finalB`; return. -/
def combineSpec (initialAB initialA finalA lengthA initialB finalB lengthB : Nat) :
    Nat :=
  let result := finalA ^^^ m_uComplement
  let result :=
    if initialA ≠ initialAB then
      result ^^^ MulX_N (initialA ^^^ initialAB) lengthA
    else result
  let result := result ^^^ (initialB ^^^ m_uComplement)
  let result := MulX_N result lengthB
  let result := result ^^^ finalB
  result

/-- Claim C6: for all seven 64-bit arguments, the source's `concat`
returns exactly the six-step three-term combination of spec section 4.3
(with the correction term xored in if and only if
`initialA != initialAB`). -/
theorem concat_is_spec_combination
    (uInitialCrcAB uInitialCrcA uFinalCrcA uSizeA uInitialCrcB uFinalCrcB
      uSizeB : Nat) :
    concat uInitialCrcAB uInitialCrcA uFinalCrcA uSizeA uInitialCrcB uFinalCrcB
        uSizeB =
      combineSpec uInitialCrcAB uInitialCrcA uFinalCrcA uSizeA uInitialCrcB
        uFinalCrcB uSizeB := by
  by_cases h : uInitialCrcA = uInitialCrcAB <;> simp [concat, combineSpec, h]

/-! ### The host-boundary view of `concat` (argument parsing) -/

/-- Models the CPython `PyArg_ParseTuple` format unit `K` used by `concat`
(crc64module.c line 162): a Python integer is converted to a C
`unsigned long long` without any overflow checking, i.e. reduced modulo
2^64; in particular negative integers are accepted and wrap around, they
are not rejected. -/
def parseK (i : Int) : Nat := (i % (2 ^ 64 : Int)).toNat

/-- The `concat` entry point as reachable from Python: all seven
arguments parsed with the `K` converter, then the combination
(crc64module.c lines 158-177).  There is no failure path for integer
arguments. -/
def concatPy (iAB iA fA lA iB fB lB : Int) : Nat :=
  concat (parseK iAB) (parseK iA) (parseK fA) (parseK lA) (parseK iB) (parseK fB)
    (parseK lB)

/-- Counterexample to claim C8: a call of `concat` with the negative
length `lengthA = -1` does not fail — it is accepted, the length wraps to
`2^64 - 1`, and the call returns the ordinary result 0 (equal to the call
with the wrapped length). -/
theorem concatPy_negative_length_accepted :
    concatPy 0 0 0 (-1) 0 0 0 = 0 ∧
      concatPy 0 0 0 (-1) 0 0 0 = concatPy 0 0 0 18446744073709551615 0 0 0 := by
  constructor <;> decide

/-- Amended claim C8: `concat` never fails on integer arguments; a
negative length is not rejected but reduced modulo 2^64 by the `K`
argument converter, so the call computes the same result as with the
wrapped (non-negative) length. -/
theorem concatPy_negative_length_wraps (iAB iA fA iB fB lB lA : Int)
    (_hneg : lA < 0) :
    concatPy iAB iA fA lA iB fB lB = concatPy iAB iA fA (lA + 2 ^ 64) iB fB lB := by
  unfold concatPy parseK
  have he : lA % (2 ^ 64 : Int) = (lA + 2 ^ 64) % (2 ^ 64 : Int) := by omega
  rw [he]

/-- Witness for the amended C8 at `lengthA = -5`. -/
theorem concatPy_negative_length_wraps_witness :
    concatPy 1 2 3 (-5) 4 5 6 = concatPy 1 2 3 (-5 + 2 ^ 64) 4 5 6 :=
  concatPy_negative_length_wraps 1 2 3 4 5 6 (-5) (by decide)

/-! ### Read-trace instrumentation of `compute` -/

end StorageCrc64
